import Mathlib

/-!
Verification of the Earth Sentinel dispatch engine
(`earth_sentinel_backend/src/models/dispatch_system.py`).

The Python module is shallowly embedded here:

* timestamps (`datetime.utcnow()`) become an explicit `now : ℚ` parameter
  (seconds); `timedelta(seconds = s)` becomes addition on ℚ;
* the haversine `Location.distance_to`, which the source computes with
  floating-point trigonometry, is abstracted as a parameter
  `dist : Location → Location → ℚ` — every property below is uniform in it,
  and concrete evaluations instantiate it with a concrete function;
* Python dicts become association lists with Python-dict semantics
  (first-match lookup, replace-in-place on update, append on fresh insert);
* `uuid.uuid4()` assignment ids become a fresh-counter `nextId` (the model of
  "fresh id never colliding with a stored one");
* a method that returns `None` on failure returns an `Option`.
-/

namespace EarthSentinel

/-- Coordinates of `Location` (lat/lon as exact rationals standing for the
source's floats; `address` is carried but never computed with). -/
structure Location where
  lat : ℚ
  lon : ℚ
  address : Option String
deriving DecidableEq

/-- The haversine distance function of the source (`Location.distance_to`),
abstracted: it is floating-point trigonometry in Python, and every claim is
about code that merely consumes its value. -/
abbrev Dist := Location → Location → ℚ

/-- `ResourceType` enum of the source (exactly these five members). -/
inductive ResourceType where
  | drone
  | autonomous_vehicle
  | emergency_team
  | supply_delivery
  | medical_unit
deriving DecidableEq

/-- `ResourceStatus` enum of the source. -/
inductive ResourceStatus where
  | available
  | dispatched
  | en_route
  | arrived
  | completed
  | failed
  | maintenance
deriving DecidableEq

/-- `DispatchStatus` enum of the source. -/
inductive DispatchStatus where
  | pending
  | searching
  | assigned
  | dispatched
  | in_progress
  | completed
  | failed
  | cancelled
deriving DecidableEq

/-- Values occurring in the loosely typed `requirements: Dict[str, any]` of a
request: strings, numbers, lists of capability strings, or capacity maps. -/
inductive PyValue where
  | pstr (s : String)
  | pint (n : Int)
  | plist (l : List String)
  | pdict (m : List (String × Int))
deriving DecidableEq

/-- `Resource` dataclass of the source (`contact_info`/`metadata` are inert
string maps for the engine and are dropped from the model). -/
structure Resource where
  resource_id : String
  resource_type : ResourceType
  name : String
  location : Location
  capabilities : List String
  capacity : List (String × Int)
  status : ResourceStatus
  operator : String
deriving DecidableEq

/-- `DispatchRequest` dataclass of the source. -/
structure DispatchRequest where
  request_id : String
  requester_id : String
  location : Location
  resource_type : ResourceType
  priority : Int
  requirements : List (String × PyValue)
  description : String
  created_at : ℚ
  deadline : Option ℚ
deriving DecidableEq

/-- One entry of `assignment.progress_updates`; the source stores a dict with
an ISO timestamp, a status tag, a human message (the resource name inlined),
and for en-route entries an integer `progress_percentage`.  The model keeps
the timestamp, the tag, and the percentage. -/
inductive ProgressEvent where
  | dispatched (t : ℚ)
  | en_route (t : ℚ) (pct : Int)
  | arrived (t : ℚ)
  | completed (t : ℚ)
deriving DecidableEq

/-- `DispatchAssignment` dataclass of the source (ids are counter-generated
naturals in place of `uuid4` strings). -/
structure DispatchAssignment where
  assignment_id : Nat
  request_id : String
  resource_id : String
  status : DispatchStatus
  assigned_at : ℚ
  estimated_arrival : Option ℚ
  actual_arrival : Option ℚ
  completion_time : Option ℚ
  route : List Location
  current_location : Option Location
  progress_updates : List ProgressEvent
deriving DecidableEq

/-- Combined mutable state of `BeckNDiscoveryService` (its `resources` dict,
kept as the list of values in insertion order) and
`DispatchFulfillmentService` (`active_requests`, `assignments`,
`fulfillment_history` — history entries modelled by the completed
assignment's id).  `nextId` generates fresh assignment ids. -/
structure SystemState where
  resources : List Resource
  active_requests : List (String × DispatchRequest)
  assignments : List (Nat × DispatchAssignment)
  nextId : Nat
  fulfillment_history : List Nat
deriving DecidableEq

/-- Python-dict lookup on an association list: first matching key. -/
def dictGet {κ α : Type} [DecidableEq κ] : List (κ × α) → κ → Option α
  | [], _ => none
  | (k, a) :: rest, key => if k = key then some a else dictGet rest key

/-- Python-dict store `d[key] = v`: replace in place when the key is present,
append otherwise. -/
def dictSet {κ α : Type} [DecidableEq κ] (l : List (κ × α)) (key : κ) (v : α) :
    List (κ × α) :=
  if (dictGet l key).isSome then
    l.map fun kv => if kv.1 = key then (key, v) else kv
  else l ++ [(key, v)]

/-- Lookup of `self.resources[resource_id]` (the registry dict keyed by the
`resource_id` field). -/
def findRes : List Resource → String → Option Resource
  | [], _ => none
  | r :: rs, rid => if r.resource_id = rid then some r else findRes rs rid

/-- `BeckNDiscoveryService.update_resource_status`: no-op when the id is
unknown (the source returns `False` there); otherwise sets the status and,
when a location is given (a `Location` object is always truthy), the
location. -/
def update_resource_status (resources : List Resource) (resource_id : String)
    (status : ResourceStatus) (location : Option Location) : List Resource :=
  if (findRes resources resource_id).isSome then
    resources.map fun r =>
      if r.resource_id = resource_id then
        { r with status := status, location := location.getD r.location }
      else r
  else resources

/-- Python `int(q)` for a float value: truncation toward zero. -/
def pyInt (q : ℚ) : Int := if 0 ≤ q then ⌊q⌋ else ⌈q⌉

/-- The inner loop of `_meets_requirements` over `requirements["min_capacity"]`:
every named capacity key must be present in the resource's capacity dict with
a value at least the threshold. -/
def capacityOk (capacity : List (String × Int)) : List (String × Int) → Bool
  | [] => true
  | (capacity_type, min_value) :: rest =>
    match dictGet capacity capacity_type with
    | none => false
    | some cv => decide (min_value ≤ cv) && capacityOk capacity rest

/-- `BeckNDiscoveryService._meets_requirements`.  The source iterates the
requirement dict and returns `False` on the first failing recognised key:
`"capabilities"` (a list value is used as is, any other value is wrapped in a
singleton list; a non-string element is never `in` the capability strings),
`"min_capacity"` (the source calls `.items()`, so only a dict value is
meaningful there), `"operator"` (Python `!=` against a non-string operator
value is `True`, hence a non-match).  Unrecognised keys are skipped. -/
def _meets_requirements (resource : Resource) :
    List (String × PyValue) → Bool
  | [] => true
  | (req_key, req_value) :: rest =>
    if req_key = "capabilities" then
      (match req_value with
       | PyValue.plist l => l.any fun cap => resource.capabilities.contains cap
       | PyValue.pstr s => resource.capabilities.contains s
       | _ => false) && _meets_requirements resource rest
    else if req_key = "min_capacity" then
      (match req_value with
       | PyValue.pdict m => capacityOk resource.capacity m
       | _ => false) && _meets_requirements resource rest
    else if req_key = "operator" then
      (match req_value with
       | PyValue.pstr s => decide (resource.operator = s)
       | _ => false) && _meets_requirements resource rest
    else _meets_requirements resource rest

/-- The sort key of `discover_resources`: the tuple
`(distance to the request, -request.priority)`. -/
def sortKey (dist : Dist) (request : DispatchRequest) (r : Resource) : ℚ × Int :=
  (dist r.location request.location, -request.priority)

/-- Lexicographic non-strict order on sort-key tuples, as Python compares
them. -/
def pairLE (x y : ℚ × Int) : Prop :=
  x.1 < y.1 ∨ (x.1 = y.1 ∧ x.2 ≤ y.2)

instance : DecidableRel pairLE := fun x y => by
  unfold pairLE; exact inferInstance

/-- The comparison `discover_resources` sorts by. -/
def keyLE (dist : Dist) (request : DispatchRequest) (a b : Resource) : Prop :=
  pairLE (sortKey dist request a) (sortKey dist request b)

instance (dist : Dist) (request : DispatchRequest) :
    DecidableRel (keyLE dist request) := fun a b => by
  unfold keyLE; exact inferInstance

/-- The filter of `discover_resources`: the source `continue`s on a type
mismatch, a non-AVAILABLE status, a distance strictly above
`max_distance_km * 1000`, or unmet requirements. -/
def discoverKeep (dist : Dist) (request : DispatchRequest)
    (max_distance_km : ℚ) (r : Resource) : Bool :=
  decide (r.resource_type = request.resource_type) &&
  decide (r.status = ResourceStatus.available) &&
  decide (dist r.location request.location ≤ max_distance_km * 1000) &&
  _meets_requirements r request.requirements

/-- `BeckNDiscoveryService.discover_resources`: filter the registry in
insertion order, then `list.sort` (a stable sort) by
`(distance, -request.priority)`.  `List.insertionSort` is stable, matching
Python's Timsort contract. -/
def discover_resources (dist : Dist) (resources : List Resource)
    (request : DispatchRequest) (max_distance_km : ℚ) : List Resource :=
  List.insertionSort (keyLE dist request)
    (resources.filter (discoverKeep dist request max_distance_km))

/-- `DispatchFulfillmentService._get_resource_speed` in m/s.  The source's
dict lists every `ResourceType` member, so the `.get` default `10.0` is
unreachable. -/
def _get_resource_speed : ResourceType → ℚ
  | ResourceType.drone => 15
  | ResourceType.autonomous_vehicle => 139 / 10
  | ResourceType.emergency_team => 111 / 10
  | ResourceType.supply_delivery => 83 / 10
  | ResourceType.medical_unit => 167 / 10

/-- `DispatchFulfillmentService._generate_route`: start point, then one
interpolated waypoint per fraction `i / num_waypoints` for
`i in range(1, num_waypoints)` where
`num_waypoints = max(2, int(distance / 5000))`, then the end point. -/
def _generate_route (dist : Dist) (start stop : Location) : List Location :=
  let num_waypoints := max 2 (pyInt (dist start stop / 5000)).toNat
  let mids := (List.range' 1 (num_waypoints - 1)).map fun (i : Nat) =>
    let progress : ℚ := (i : ℚ) / (num_waypoints : ℚ)
    { lat := start.lat + (stop.lat - start.lat) * progress
      lon := start.lon + (stop.lon - start.lon) * progress
      address := none : Location }
  (start :: mids) ++ [stop]

/-- Python truthiness test `if not resource_id:` on an `Optional[str]`:
`None` and the empty string are falsy. -/
def falsyId : Option String → Bool
  | none => true
  | some s => decide (s = "")

/-- Resolution of the resource id inside `assign_resource`: when the given id
is falsy, discovery runs at the default 50 km radius and the nearest match's
id is taken (`none` when discovery is empty, making `assign_resource` return
`None`); otherwise the given id is used. -/
def resolvedId (dist : Dist) (st : SystemState) (request : DispatchRequest)
    (resource_id : Option String) : Option String :=
  if falsyId resource_id then
    (discover_resources dist st.resources request 50).head?.map
      fun r => r.resource_id
  else resource_id

/-- `DispatchFulfillmentService.assign_resource`.  Returns the created
assignment (or `none` on any failure branch) paired with the next state; the
source mutates `self`, here the state is passed explicitly.  Both
`datetime.utcnow()` calls in the source happen in the same instant `now`. -/
def assign_resource (dist : Dist) (st : SystemState) (now : ℚ)
    (request_id : String) (resource_id : Option String) :
    Option DispatchAssignment × SystemState :=
  match dictGet st.active_requests request_id with
  | none => (none, st)
  | some request =>
    match resolvedId dist st request resource_id with
    | none => (none, st)
    | some rid =>
      match findRes st.resources rid with
      | none => (none, st)
      | some resource =>
        if resource.status = ResourceStatus.available then
          let distance := dist resource.location request.location
          let speed_mps := _get_resource_speed resource.resource_type
          let assignment : DispatchAssignment :=
            { assignment_id := st.nextId
              request_id := request_id
              resource_id := rid
              status := DispatchStatus.assigned
              assigned_at := now
              estimated_arrival := some (now + distance / speed_mps)
              actual_arrival := none
              completion_time := none
              route := _generate_route dist resource.location request.location
              current_location := some resource.location
              progress_updates := [] }
          (some assignment,
            { st with
                resources :=
                  update_resource_status st.resources rid
                    ResourceStatus.dispatched none
                assignments := dictSet st.assignments st.nextId assignment
                nextId := st.nextId + 1 })
        else (none, st)

/-- Fallback location for the (unreachable on reachable states) indexing of
an empty route; the Python source would raise an `IndexError` there. -/
def defaultLoc : Location := { lat := 0, lon := 0, address := none }

/-- `DispatchFulfillmentService.update_assignment_progress`.  One state step
per call.  The source reads `self.discovery_service.resources[...]` only for
the human-readable event message (resources are never deleted, so that lookup
cannot fail on reachable states); events here carry no message text.  In the
DISPATCHED branch the source computes `min(1.0, elapsed / total)` — with no
lower clamp — and `elapsed / total` raises `ZeroDivisionError` in Python when
`total = 0`, while `/` on ℚ gives `0`; the claims about this branch assume
`0 < total`. -/
def update_assignment_progress (st : SystemState) (now : ℚ)
    (assignment_id : Nat) : Option DispatchAssignment × SystemState :=
  match dictGet st.assignments assignment_id with
  | none => (none, st)
  | some assignment =>
    let elapsed := now - assignment.assigned_at
    match assignment.status with
    | DispatchStatus.assigned =>
      let a2 := { assignment with
        status := DispatchStatus.dispatched
        progress_updates :=
          assignment.progress_updates ++ [ProgressEvent.dispatched now] }
      (some a2,
        { st with
            assignments := dictSet st.assignments assignment_id a2
            resources :=
              update_resource_status st.resources assignment.resource_id
                ResourceStatus.en_route none })
    | DispatchStatus.dispatched =>
      match assignment.estimated_arrival with
      | none => (some assignment, st)
      | some eta =>
        let total := eta - assignment.assigned_at
        let progress := min 1 (elapsed / total)
        if 1 ≤ progress then
          let destination := assignment.route.getLastD defaultLoc
          let a2 := { assignment with
            status := DispatchStatus.in_progress
            actual_arrival := some now
            current_location := some destination
            progress_updates :=
              assignment.progress_updates ++ [ProgressEvent.arrived now] }
          (some a2,
            { st with
                assignments := dictSet st.assignments assignment_id a2
                resources :=
                  update_resource_status st.resources assignment.resource_id
                    ResourceStatus.arrived (some destination) })
        else
          let route_index :=
            (pyInt (progress * ((assignment.route.length : ℚ) - 1))).toNat
          let a2 := { assignment with
            current_location :=
              some (assignment.route.getD route_index defaultLoc)
            progress_updates :=
              assignment.progress_updates ++
                [ProgressEvent.en_route now (pyInt (progress * 100))] }
          (some a2,
            { st with assignments := dictSet st.assignments assignment_id a2 })
    | DispatchStatus.in_progress =>
      match assignment.actual_arrival with
      | none => (some assignment, st)
      | some arr =>
        if 300 < now - arr then
          let a2 := { assignment with
            status := DispatchStatus.completed
            completion_time := some now
            progress_updates :=
              assignment.progress_updates ++ [ProgressEvent.completed now] }
          (some a2,
            { st with
                assignments := dictSet st.assignments assignment_id a2
                resources :=
                  update_resource_status
                    (update_resource_status st.resources
                      assignment.resource_id ResourceStatus.completed none)
                    assignment.resource_id ResourceStatus.available none
                fulfillment_history :=
                  st.fulfillment_history ++ [assignment_id] })
        else (some assignment, st)
    | _ => (some assignment, st)

/-- `DispatchFulfillmentService.cancel_assignment`: `False` when the id is
unknown; otherwise unconditionally sets the status to CANCELLED (whatever the
current status), returns the resource to AVAILABLE, and returns `True`. -/
def cancel_assignment (st : SystemState) (assignment_id : Nat) :
    Bool × SystemState :=
  match dictGet st.assignments assignment_id with
  | none => (false, st)
  | some assignment =>
    let a2 := { assignment with status := DispatchStatus.cancelled }
    (true,
      { st with
          assignments := dictSet st.assignments assignment_id a2
          resources :=
            update_resource_status st.resources assignment.resource_id
              ResourceStatus.available none })

/-- The capability list a requirement value denotes:
`req_value if isinstance(req_value, list) else [req_value]` (a non-string,
non-list value yields a list no capability string equals). -/
def capList : PyValue → List String
  | PyValue.plist l => l
  | PyValue.pstr s => [s]
  | _ => []

/-- Spec-side reading of one requirement entry, in the claim's words:
`capabilities` — at least one listed capability is among the resource's
capabilities; `min_capacity` — every named capacity key is present in the
resource's capacity map with value at least the threshold; `operator` —
exact string equality. -/
def ReqKeySat (resource : Resource) (kv : String × PyValue) : Prop :=
  (kv.1 = "capabilities" → ∃ c ∈ capList kv.2, c ∈ resource.capabilities) ∧
  (kv.1 = "min_capacity" → ∀ m, kv.2 = PyValue.pdict m →
    ∀ p ∈ m, ∃ cv, dictGet resource.capacity p.1 = some cv ∧ p.2 ≤ cv) ∧
  (kv.1 = "operator" → kv.2 = PyValue.pstr resource.operator)

/-- Well-formedness of a requirement entry: each recognised key carries the
value shape the source expects (`min_capacity` must be a dict — the source
calls `.items()` on it — `operator` a string, `capabilities` a list or a
string). -/
def WFReq (kv : String × PyValue) : Prop :=
  (kv.1 = "capabilities" →
    (∃ l, kv.2 = PyValue.plist l) ∨ (∃ s, kv.2 = PyValue.pstr s)) ∧
  (kv.1 = "min_capacity" → ∃ m, kv.2 = PyValue.pdict m) ∧
  (kv.1 = "operator" → ∃ s, kv.2 = PyValue.pstr s)

/-- Position of a status along the assignment lifecycle
ASSIGNED → DISPATCHED → IN_PROGRESS → COMPLETED, with CANCELLED last
(reachable from anywhere by cancellation); the three statuses the engine
never stores in an assignment rank lowest. -/
def statusRank : DispatchStatus → Nat
  | DispatchStatus.pending => 0
  | DispatchStatus.searching => 0
  | DispatchStatus.failed => 0
  | DispatchStatus.assigned => 1
  | DispatchStatus.dispatched => 2
  | DispatchStatus.in_progress => 3
  | DispatchStatus.completed => 4
  | DispatchStatus.cancelled => 5

/-- Invariant of the fresh-id counter: every stored assignment key was
generated before `nextId` (the model of `uuid4` ids never colliding). -/
def WFState (st : SystemState) : Prop :=
  ∀ k ∈ st.assignments.map Prod.fst, k < st.nextId

/-- One engine operation: an `assign_resource`, an
`update_assignment_progress`, or a `cancel_assignment`, at any time and with
any arguments. -/
inductive Step (dist : Dist) : SystemState → SystemState → Prop
  | assign (st : SystemState) (now : ℚ) (request_id : String)
      (resource_id : Option String) :
      Step dist st (assign_resource dist st now request_id resource_id).2
  | advance (st : SystemState) (now : ℚ) (assignment_id : Nat) :
      Step dist st (update_assignment_progress st now assignment_id).2
  | cancel (st : SystemState) (assignment_id : Nat) :
      Step dist st (cancel_assignment st assignment_id).2

/-- Concrete fixtures: a one-resource, one-request world used to evaluate the
operations on closed inputs. -/
def runLoc0 : Location := { lat := 0, lon := 0, address := none }

def runLoc1 : Location := { lat := 1, lon := 1, address := none }

/-- A concrete stand-in for the haversine: constant 1500 m. -/
def runDist : Dist := fun _ _ => 1500

def runResource : Resource :=
  { resource_id := "R1"
    resource_type := ResourceType.drone
    name := "Emergency Drone 1"
    location := runLoc0
    capabilities := ["aerial_surveillance", "supply_delivery"]
    capacity := [("cargo_kg", 10)]
    status := ResourceStatus.available
    operator := "Emergency Services Unit 1" }

def runRequest : DispatchRequest :=
  { request_id := "Q1"
    requester_id := "user-1"
    location := runLoc1
    resource_type := ResourceType.drone
    priority := 3
    requirements := []
    description := "flood response"
    created_at := 0
    deadline := none }

def st0 : SystemState :=
  { resources := [runResource]
    active_requests := [("Q1", runRequest)]
    assignments := []
    nextId := 0
    fulfillment_history := [] }

/-- The route the fixture world generates: 1500 m / 5000 gives 0 interior
waypoints from the distance, so `max(2, 0) = 2` waypoints and one midpoint. -/
def midLoc : Location := { lat := 1 / 2, lon := 1 / 2, address := none }

def routeR : List Location := [runLoc0, midLoc, runLoc1]

/-- The assignment `assign_resource` creates in the fixture world:
ETA 0 + 1500 / 15 = 100 s. -/
def asg1 : DispatchAssignment :=
  { assignment_id := 0
    request_id := "Q1"
    resource_id := "R1"
    status := DispatchStatus.assigned
    assigned_at := 0
    estimated_arrival := some 100
    actual_arrival := none
    completion_time := none
    route := routeR
    current_location := some runLoc0
    progress_updates := [] }

/-- The fixture assignment after the first poll (time 0). -/
def asg2 : DispatchAssignment :=
  { asg1 with
      status := DispatchStatus.dispatched
      progress_updates := [ProgressEvent.dispatched 0] }

/-- The fixture assignment after arriving at time 100. -/
def asg3 : DispatchAssignment :=
  { asg2 with
      status := DispatchStatus.in_progress
      actual_arrival := some 100
      current_location := some runLoc1
      progress_updates :=
        [ProgressEvent.dispatched 0, ProgressEvent.arrived 100] }

/-- The fixture assignment after completing at time 401. -/
def asg4 : DispatchAssignment :=
  { asg3 with
      status := DispatchStatus.completed
      completion_time := some 401
      progress_updates :=
        [ProgressEvent.dispatched 0, ProgressEvent.arrived 100,
          ProgressEvent.completed 401] }

/-- The fixture assignment after cancelling the completed mission. -/
def asg5 : DispatchAssignment :=
  { asg4 with status := DispatchStatus.cancelled }

def runResourceD : Resource :=
  { runResource with status := ResourceStatus.dispatched }

def runResourceE : Resource :=
  { runResource with status := ResourceStatus.en_route }

def runResourceArr : Resource :=
  { runResource with status := ResourceStatus.arrived, location := runLoc1 }

def runResourceAv : Resource :=
  { runResource with status := ResourceStatus.available, location := runLoc1 }

/-- State after `assign_resource` at time 0 (no resource id given). -/
def st1e : SystemState :=
  { st0 with
      resources := [runResourceD]
      assignments := [(0, asg1)]
      nextId := 1 }

/-- State after the first progress poll at time 0 (ASSIGNED → DISPATCHED). -/
def st2e : SystemState :=
  { st1e with resources := [runResourceE], assignments := [(0, asg2)] }

/-- State after the poll at time 100 = the ETA (DISPATCHED → IN_PROGRESS). -/
def st3e : SystemState :=
  { st2e with resources := [runResourceArr], assignments := [(0, asg3)] }

/-- State after the poll at time 401, 301 s past arrival
(IN_PROGRESS → COMPLETED). -/
def st4e : SystemState :=
  { st3e with
      resources := [runResourceAv]
      assignments := [(0, asg4)]
      fulfillment_history := [0] }

/-- State after cancelling the already-COMPLETED assignment. -/
def st5e : SystemState :=
  { st4e with assignments := [(0, asg5)] }

/-- Fixtures for the discovery tie-break: two resources registered as "B"
then "A", both at the request's own location, so both at exactly equal
distance. -/
def zeroDist : Dist := fun _ _ => 0

def tieLoc : Location := { lat := 0, lon := 0, address := none }

def resB : Resource :=
  { resource_id := "B"
    resource_type := ResourceType.drone
    name := "Drone B"
    location := tieLoc
    capabilities := []
    capacity := []
    status := ResourceStatus.available
    operator := "op" }

def resA : Resource :=
  { resB with resource_id := "A", name := "Drone A" }

def tieRequest : DispatchRequest :=
  { runRequest with request_id := "QT", location := tieLoc }

/-- A concrete distance of 17,500 m: `17500 / 5000 = 3.5`, where truncation
gives 3 but rounding gives 4. -/
def dist17500 : Dist := fun _ _ => 17500

theorem dictGet_append {κ α : Type} [DecidableEq κ] (l l' : List (κ × α))
    (key : κ) :
    dictGet (l ++ l') key =
      match dictGet l key with
      | some a => some a
      | none => dictGet l' key := by
  induction l with
  | nil => simp [dictGet]
  | cons kv rest ih =>
    obtain ⟨k, a⟩ := kv
    by_cases h : k = key <;> simp [dictGet, h, ih]


theorem dictGet_cons {κ α : Type} [DecidableEq κ] (k : κ) (a : α)
    (rest : List (κ × α)) (key : κ) :
    dictGet ((k, a) :: rest) key =
      if k = key then some a else dictGet rest key := rfl

theorem dictGet_map_replace {κ α : Type} [DecidableEq κ]
    (l : List (κ × α)) (key : κ) (v : α) (h : (dictGet l key).isSome) :
    dictGet (l.map fun kv => if kv.1 = key then (key, v) else kv) key =
      some v := by
  induction l with
  | nil => simp [dictGet] at h
  | cons kv rest ih =>
    obtain ⟨k, a⟩ := kv
    rw [dictGet_cons] at h
    rw [List.map_cons]
    dsimp only
    by_cases hk : k = key
    · rw [if_pos hk, dictGet_cons, if_pos rfl]
    · rw [if_neg hk] at h
      rw [if_neg hk, dictGet_cons, if_neg hk]
      exact ih h

theorem dictGet_dictSet_self {κ α : Type} [DecidableEq κ]
    (l : List (κ × α)) (key : κ) (v : α) :
    dictGet (dictSet l key v) key = some v := by
  unfold dictSet
  split
  · exact dictGet_map_replace l key v (by assumption)
  · rename_i h
    rw [dictGet_append]
    cases hg : dictGet l key with
    | some a => rw [hg] at h; simp at h
    | none => simp [dictGet]

theorem dictGet_map_replace_ne {κ α : Type} [DecidableEq κ]
    (l : List (κ × α)) (key k : κ) (v : α) (hne : k ≠ key) :
    dictGet (l.map fun kv => if kv.1 = key then (key, v) else kv) k =
      dictGet l k := by
  induction l with
  | nil => rfl
  | cons kv rest ih =>
    obtain ⟨k', a⟩ := kv
    rw [List.map_cons]
    dsimp only
    by_cases hk : k' = key
    · rw [if_pos hk, dictGet_cons, dictGet_cons,
        if_neg (Ne.symm hne), if_neg (hk ▸ Ne.symm hne)]
      exact ih
    · rw [if_neg hk, dictGet_cons, dictGet_cons]
      by_cases hkk : k' = k
      · rw [if_pos hkk, if_pos hkk]
      · rw [if_neg hkk, if_neg hkk]
        exact ih

theorem dictGet_dictSet_ne {κ α : Type} [DecidableEq κ]
    (l : List (κ × α)) (key k : κ) (v : α) (hne : k ≠ key) :
    dictGet (dictSet l key v) k = dictGet l k := by
  unfold dictSet
  split
  · exact dictGet_map_replace_ne l key k v hne
  · rw [dictGet_append]
    cases hg : dictGet l k with
    | some a => rfl
    | none => simp [dictGet, Ne.symm hne]

theorem dictGet_eq_none_of_lt {α : Type} (l : List (Nat × α)) (n : Nat)
    (h : ∀ k ∈ l.map Prod.fst, k < n) : dictGet l n = none := by
  induction l with
  | nil => rfl
  | cons kv rest ih =>
    obtain ⟨k, a⟩ := kv
    have hk : k < n := h k (by simp)
    rw [dictGet_cons, if_neg (Nat.ne_of_lt hk)]
    exact ih fun k' hk' => h k' (by simp [hk'])

theorem keys_map_replace {κ α : Type} [DecidableEq κ]
    (l : List (κ × α)) (key : κ) (v : α) :
    ((l.map fun kv => if kv.1 = key then (key, v) else kv).map Prod.fst) =
      l.map Prod.fst := by
  induction l with
  | nil => rfl
  | cons kv rest ih =>
    obtain ⟨k, a⟩ := kv
    rw [List.map_cons, List.map_cons, List.map_cons]
    dsimp only
    by_cases hk : k = key
    · rw [if_pos hk, ih, hk]
    · rw [if_neg hk, ih]

theorem dictSet_keys_of_present {κ α : Type} [DecidableEq κ]
    (l : List (κ × α)) (key : κ) (v : α) (h : (dictGet l key).isSome) :
    (dictSet l key v).map Prod.fst = l.map Prod.fst := by
  unfold dictSet
  rw [if_pos h]
  exact keys_map_replace l key v

theorem findRes_cons (r : Resource) (rest : List Resource) (rid : String) :
    findRes (r :: rest) rid =
      if r.resource_id = rid then some r else findRes rest rid := rfl

theorem findRes_update_self (resources : List Resource) (resource_id : String)
    (status : ResourceStatus) (location : Option Location) :
    findRes (update_resource_status resources resource_id status location)
        resource_id =
      (findRes resources resource_id).map fun r =>
        { r with status := status, location := location.getD r.location } := by
  unfold update_resource_status
  split
  · rename_i h
    revert h
    induction resources with
    | nil => intro _; rfl
    | cons r rest ih =>
      intro h
      rw [List.map_cons]
      by_cases hr : r.resource_id = resource_id
      · rw [if_pos hr, findRes_cons, findRes_cons, if_pos hr]
        simp [hr]
      · rw [if_neg hr, findRes_cons, findRes_cons, if_neg hr, if_neg hr]
        refine ih ?_
        rwa [findRes_cons, if_neg hr] at h
  · rename_i h
    cases hg : findRes resources resource_id with
    | some r => rw [hg] at h; simp at h
    | none => simp

/-- C8: for an assignment whose status is COMPLETED or CANCELLED,
`update_assignment_progress` is a no-op returning the stored assignment: it
changes nothing in the assignment (status, completion time, progress log),
no resource status, and appends nothing to the fulfillment history, and
therefore iterating it any number of times leaves the state unchanged. -/
theorem advance_terminal_noop (st : SystemState) (now : ℚ) (aid : Nat)
    (a : DispatchAssignment) (ha : dictGet st.assignments aid = some a)
    (hterm : a.status = DispatchStatus.completed ∨
      a.status = DispatchStatus.cancelled) :
    update_assignment_progress st now aid = (some a, st) ∧
    ∀ n, (fun s => (update_assignment_progress s now aid).2)^[n] st = st := by
  have h1 : update_assignment_progress st now aid = (some a, st) := by
    unfold update_assignment_progress
    rw [ha]
    dsimp only
    rcases hterm with h | h <;> rw [h]
  refine ⟨h1, fun n => ?_⟩
  induction n with
  | zero => rfl
  | succ n ih =>
    rw [Function.iterate_succ_apply]
    simpa [h1] using ih

/-- C10: `_meets_requirements` inspects only the keys `"capabilities"`,
`"min_capacity"` and `"operator"`: its value is unchanged when all other
entries are filtered out, and a requirements map containing only
unrecognised keys is satisfied by every resource. -/
theorem meets_requirements_ignores_unknown_keys (resource : Resource)
    (reqs : List (String × PyValue)) :
    _meets_requirements resource reqs =
      _meets_requirements resource (reqs.filter fun kv =>
        decide (kv.1 = "capabilities") || decide (kv.1 = "min_capacity") ||
        decide (kv.1 = "operator")) ∧
    ((∀ kv ∈ reqs, kv.1 ≠ "capabilities" ∧ kv.1 ≠ "min_capacity" ∧
        kv.1 ≠ "operator") →
      _meets_requirements resource reqs = true) := by
  have hfilter : ∀ l : List (String × PyValue),
      _meets_requirements resource l =
        _meets_requirements resource (l.filter fun kv =>
          decide (kv.1 = "capabilities") || decide (kv.1 = "min_capacity") ||
          decide (kv.1 = "operator")) := by
    intro l
    induction l with
    | nil => rfl
    | cons kv rest ih =>
      obtain ⟨k, v⟩ := kv
      by_cases h1 : k = "capabilities"
      · simp [_meets_requirements, List.filter_cons, h1, ih]
      · by_cases h2 : k = "min_capacity"
        · simp [_meets_requirements, List.filter_cons, h1, h2, ih]
        · by_cases h3 : k = "operator"
          · simp [_meets_requirements, List.filter_cons, h1, h2, h3, ih]
          · simpa [_meets_requirements, List.filter_cons, h1, h2, h3]
              using ih
  refine ⟨hfilter reqs, fun hno => ?_⟩
  rw [hfilter reqs]
  have hempty : (reqs.filter fun kv =>
      decide (kv.1 = "capabilities") || decide (kv.1 = "min_capacity") ||
      decide (kv.1 = "operator")) = [] := by
    rw [List.filter_eq_nil_iff]
    intro kv hkv
    obtain ⟨n1, n2, n3⟩ := hno kv hkv
    simp [n1, n2, n3]
  rw [hempty]
  rfl

/-- C6: cancelling a known assignment — whatever its current status,
including COMPLETED and CANCELLED — returns `true`, stores the assignment
with status CANCELLED, and sets the referenced resource (when registered)
back to AVAILABLE; cancelling an unknown assignment id returns `false` and
changes nothing. -/
theorem cancel_assignment_spec (st : SystemState) (aid : Nat) :
    (∀ a, dictGet st.assignments aid = some a →
      cancel_assignment st aid =
        (true,
          { st with
              assignments := dictSet st.assignments aid
                { a with status := DispatchStatus.cancelled }
              resources := update_resource_status st.resources a.resource_id
                ResourceStatus.available none }) ∧
      dictGet (cancel_assignment st aid).2.assignments aid =
        some { a with status := DispatchStatus.cancelled } ∧
      (∀ r, findRes st.resources a.resource_id = some r →
        findRes (cancel_assignment st aid).2.resources a.resource_id =
          some { r with status := ResourceStatus.available })) ∧
    (dictGet st.assignments aid = none →
      cancel_assignment st aid = (false, st)) := by
  constructor
  · intro a ha
    have heq : cancel_assignment st aid =
        (true,
          { st with
              assignments := dictSet st.assignments aid
                { a with status := DispatchStatus.cancelled }
              resources := update_resource_status st.resources a.resource_id
                ResourceStatus.available none }) := by
      unfold cancel_assignment
      rw [ha]
    refine ⟨heq, ?_, ?_⟩
    · rw [heq]
      exact dictGet_dictSet_self st.assignments aid _
    · intro r hr
      rw [heq]
      dsimp only
      rw [findRes_update_self, hr]
      simp
  · intro h
    unfold cancel_assignment
    rw [h]

/-- The resource-id resolution of `assign_resource` yields nothing exactly
when the given id is falsy (omitted or empty) and discovery at the default
50 km radius comes back empty. -/
theorem resolvedId_eq_none_iff (dist : Dist) (st : SystemState)
    (request : DispatchRequest) (orid : Option String) :
    resolvedId dist st request orid = none ↔
      (falsyId orid = true ∧
        discover_resources dist st.resources request 50 = []) := by
  unfold resolvedId
  by_cases hf : falsyId orid = true
  · rw [if_pos hf]
    simp [hf, Option.map_eq_none', List.head?_eq_none_iff]
  · rw [if_neg hf]
    cases orid with
    | none => simp [falsyId] at hf
    | some s => simp [hf]

/-- C7: `assign_resource` returns `None` exactly when the request id is
unknown, or the resource id is omitted (falsy) and discovery at the default
50 km radius is empty, or the resolved resource id names no registered
resource, or it names one whose status is not AVAILABLE; and every failure
leaves the state unchanged (no assignment created, no resource status
changed).  The source collapses the spec's four error kinds into a single
`None`; each disjunct is the branch condition of one named failure. -/
theorem assign_resource_failure_cases (dist : Dist) (st : SystemState)
    (now : ℚ) (request_id : String) (orid : Option String) :
    ((assign_resource dist st now request_id orid).1 = none ↔
      dictGet st.active_requests request_id = none ∨
      ∃ request, dictGet st.active_requests request_id = some request ∧
        ((falsyId orid = true ∧
            discover_resources dist st.resources request 50 = []) ∨
         (∃ rid, resolvedId dist st request orid = some rid ∧
            findRes st.resources rid = none) ∨
         (∃ rid r, resolvedId dist st request orid = some rid ∧
            findRes st.resources rid = some r ∧
            r.status ≠ ResourceStatus.available))) ∧
    ((assign_resource dist st now request_id orid).1 = none →
      (assign_resource dist st now request_id orid).2 = st) := by
  unfold assign_resource
  cases hreq : dictGet st.active_requests request_id with
  | none =>
    exact ⟨⟨fun _ => Or.inl rfl, fun _ => rfl⟩, fun _ => rfl⟩
  | some request =>
    dsimp only
    cases hrid : resolvedId dist st request orid with
    | none =>
      have hd := (resolvedId_eq_none_iff dist st request orid).mp hrid
      exact ⟨⟨fun _ => Or.inr ⟨request, rfl, Or.inl hd⟩, fun _ => rfl⟩,
        fun _ => rfl⟩
    | some rid =>
      dsimp only
      cases hres : findRes st.resources rid with
      | none =>
        exact ⟨⟨fun _ =>
          Or.inr ⟨request, rfl, Or.inr (Or.inl ⟨rid, hrid, hres⟩)⟩,
          fun _ => rfl⟩, fun _ => rfl⟩
      | some resource =>
        dsimp only
        by_cases hav : resource.status = ResourceStatus.available
        · rw [if_pos hav]
          constructor
          · constructor
            · intro h
              exact absurd h (by simp)
            · rintro (h | ⟨request', hreq', h'⟩)
              · exact absurd h (by simp)
              · have hrr : request' = request := by injection hreq'.symm
                rw [hrr] at h'
                rcases h' with ⟨hf, hd⟩ | ⟨rid', h1, h2⟩ | ⟨rid', r', h1, h2, h3⟩
                · have hn : resolvedId dist st request orid = none :=
                    (resolvedId_eq_none_iff dist st request orid).mpr ⟨hf, hd⟩
                  rw [hrid] at hn
                  exact absurd hn (by simp)
                · rw [hrid] at h1
                  obtain rfl : rid' = rid := by injection h1.symm
                  rw [hres] at h2
                  exact absurd h2 (by simp)
                · rw [hrid] at h1
                  obtain rfl : rid' = rid := by injection h1.symm
                  rw [hres] at h2
                  obtain rfl : r' = resource := by injection h2.symm
                  exact absurd hav h3
          · intro h
            exact absurd h (by simp)
        · rw [if_neg hav]
          exact ⟨⟨fun _ => Or.inr ⟨request, rfl,
            Or.inr (Or.inr ⟨rid, resource, hrid, hres, hav⟩)⟩,
            fun _ => rfl⟩, fun _ => rfl⟩

/-- C2: assigning a known request to an AVAILABLE resource — named
explicitly, or resolved as the nearest discovery match at the default 50 km
radius when the id is omitted — returns an Assignment in status ASSIGNED
whose `current_location` is the resource's location, whose
`estimated_arrival` is the assignment time plus distance divided by the
per-type speed (drone 15, autonomous vehicle 13.9, emergency team 11.1,
supply delivery 8.3, medical unit 16.7 m/s — the speed table covers every
`ResourceType`, so the source's `10.0` default is unreachable), whose route
is the generated route, while the resource's status becomes DISPATCHED and
the Assignment is stored under its id. -/
theorem assign_resource_success (dist : Dist) (st : SystemState) (now : ℚ)
    (request_id : String) (orid : Option String)
    (request : DispatchRequest) (chosen : Resource)
    (hreq : dictGet st.active_requests request_id = some request)
    (hsel : match orid with
      | some rid => rid ≠ "" ∧ rid = chosen.resource_id
      | none => ∃ rest, discover_resources dist st.resources request 50 =
          chosen :: rest)
    (hres : findRes st.resources chosen.resource_id = some chosen)
    (havail : chosen.status = ResourceStatus.available) :
    ∃ a st',
      assign_resource dist st now request_id orid = (some a, st') ∧
      a.status = DispatchStatus.assigned ∧
      a.current_location = some chosen.location ∧
      a.assigned_at = now ∧
      a.estimated_arrival = some (now +
        dist chosen.location request.location /
          _get_resource_speed chosen.resource_type) ∧
      a.route = _generate_route dist chosen.location request.location ∧
      findRes st'.resources chosen.resource_id =
        some { chosen with status := ResourceStatus.dispatched } ∧
      dictGet st'.assignments a.assignment_id = some a ∧
      _get_resource_speed ResourceType.drone = 15 ∧
      _get_resource_speed ResourceType.autonomous_vehicle = 139 / 10 ∧
      _get_resource_speed ResourceType.emergency_team = 111 / 10 ∧
      _get_resource_speed ResourceType.supply_delivery = 83 / 10 ∧
      _get_resource_speed ResourceType.medical_unit = 167 / 10 := by
  have hrid : resolvedId dist st request orid = some chosen.resource_id := by
    cases orid with
    | none =>
      obtain ⟨rest, hdisc⟩ := hsel
      unfold resolvedId falsyId
      rw [if_pos rfl, hdisc]
      rfl
    | some rid =>
      obtain ⟨hne, hrr⟩ := hsel
      unfold resolvedId falsyId
      rw [if_neg (by simpa using hne), hrr]
  unfold assign_resource
  rw [hreq]
  dsimp only
  rw [hrid]
  dsimp only
  rw [hres]
  dsimp only
  rw [if_pos havail]
  refine ⟨_, _, rfl, rfl, rfl, rfl, rfl, rfl, ?_, ?_, rfl, rfl, rfl, rfl, rfl⟩
  · dsimp only
    rw [findRes_update_self, hres]
    simp
  · dsimp only
    exact dictGet_dictSet_self st.assignments st.nextId _

/-- C3: advancing a DISPATCHED assignment with an ETA set computes
`progress = clamp(elapsed / total, 0, 1)` (the source computes
`min(1, elapsed / total)`; under wall-clock time `assigned_at ≤ now` the two
agree); when `progress ≥ 1` it moves to IN_PROGRESS, sets `actual_arrival`
to now, sets the current location to the last route point, and sets the
resource's status to ARRIVED; otherwise it keeps status DISPATCHED, sets the
current location to `route[⌊progress * (len(route) - 1)⌋]` (an in-range
index), and appends an en-route event carrying the integer percentage
`⌊progress * 100⌋`. -/
theorem update_progress_dispatched (st : SystemState) (now : ℚ) (aid : Nat)
    (a : DispatchAssignment) (eta : ℚ)
    (ha : dictGet st.assignments aid = some a)
    (hs : a.status = DispatchStatus.dispatched)
    (heta : a.estimated_arrival = some eta)
    (hle : a.assigned_at ≤ now)
    (hpos : 0 < eta - a.assigned_at)
    (hroute : a.route ≠ []) :
    a.route.getLast? = some (a.route.getLastD defaultLoc) ∧
    (1 ≤ max 0 (min 1 ((now - a.assigned_at) / (eta - a.assigned_at))) →
      update_assignment_progress st now aid =
        (some { a with
            status := DispatchStatus.in_progress
            actual_arrival := some now
            current_location := some (a.route.getLastD defaultLoc)
            progress_updates :=
              a.progress_updates ++ [ProgressEvent.arrived now] },
          { st with
              assignments := dictSet st.assignments aid
                { a with
                    status := DispatchStatus.in_progress
                    actual_arrival := some now
                    current_location := some (a.route.getLastD defaultLoc)
                    progress_updates :=
                      a.progress_updates ++ [ProgressEvent.arrived now] }
              resources := update_resource_status st.resources a.resource_id
                ResourceStatus.arrived
                (some (a.route.getLastD defaultLoc)) })) ∧
    (max 0 (min 1 ((now - a.assigned_at) / (eta - a.assigned_at))) < 1 →
      (⌊max 0 (min 1 ((now - a.assigned_at) / (eta - a.assigned_at))) *
          ((a.route.length : ℚ) - 1)⌋).toNat < a.route.length ∧
      update_assignment_progress st now aid =
        (some { a with
            status := DispatchStatus.dispatched
            current_location := some (a.route.getD
              (⌊max 0 (min 1 ((now - a.assigned_at) /
                  (eta - a.assigned_at))) * ((a.route.length : ℚ) - 1)⌋).toNat
              defaultLoc)
            progress_updates := a.progress_updates ++
              [ProgressEvent.en_route now
                (⌊max 0 (min 1 ((now - a.assigned_at) /
                    (eta - a.assigned_at))) * 100⌋)] },
          { st with
              assignments := dictSet st.assignments aid
                { a with
                    status := DispatchStatus.dispatched
                    current_location := some (a.route.getD
                      (⌊max 0 (min 1 ((now - a.assigned_at) /
                          (eta - a.assigned_at))) *
                          ((a.route.length : ℚ) - 1)⌋).toNat
                      defaultLoc)
                    progress_updates := a.progress_updates ++
                      [ProgressEvent.en_route now
                        (⌊max 0 (min 1 ((now - a.assigned_at) /
                            (eta - a.assigned_at))) * 100⌋)] } })) := by
  have hx : 0 ≤ (now - a.assigned_at) / (eta - a.assigned_at) :=
    div_nonneg (by linarith) (le_of_lt hpos)
  have hmin0 : 0 ≤ min 1 ((now - a.assigned_at) / (eta - a.assigned_at)) :=
    le_min (by norm_num) hx
  have hclamp :
      max 0 (min 1 ((now - a.assigned_at) / (eta - a.assigned_at))) =
        min 1 ((now - a.assigned_at) / (eta - a.assigned_at)) :=
    max_eq_right hmin0
  have hlast : a.route.getLast? = some (a.route.getLastD defaultLoc) := by
    cases hg : a.route.getLast? with
    | none => exact absurd (List.getLast?_eq_none_iff.mp hg) hroute
    | some y =>
      rw [List.getLastD_eq_getLast? defaultLoc a.route, hg]
      rfl
  refine ⟨hlast, ?_, ?_⟩
  · intro hge
    rw [hclamp] at hge
    unfold update_assignment_progress
    rw [ha]
    dsimp only
    rw [hs]
    dsimp only
    rw [heta]
    dsimp only
    rw [if_pos hge]
  · intro hlt
    rw [hclamp] at hlt
    rw [hclamp]
    have hnotge :
        ¬ (1 ≤ min 1 ((now - a.assigned_at) / (eta - a.assigned_at))) :=
      not_le.mpr hlt
    have hlen0 : 0 < a.route.length := List.length_pos.mpr hroute
    have hlen1 : (1 : ℚ) ≤ (a.route.length : ℚ) := by exact_mod_cast hlen0
    have hmuln : 0 ≤ min 1 ((now - a.assigned_at) / (eta - a.assigned_at)) *
        ((a.route.length : ℚ) - 1) :=
      mul_nonneg hmin0 (by linarith)
    have hpct : 0 ≤ min 1 ((now - a.assigned_at) / (eta - a.assigned_at)) *
        (100 : ℚ) :=
      mul_nonneg hmin0 (by norm_num)
    have hidx : (⌊min 1 ((now - a.assigned_at) / (eta - a.assigned_at)) *
        ((a.route.length : ℚ) - 1)⌋).toNat < a.route.length := by
      have hble : min 1 ((now - a.assigned_at) / (eta - a.assigned_at)) *
          ((a.route.length : ℚ) - 1) ≤ (a.route.length : ℚ) - 1 :=
        mul_le_of_le_one_left (by linarith) (min_le_left _ _)
      have hcast : ((a.route.length : ℚ) - 1) =
          (((a.route.length : ℤ) - 1 : ℤ) : ℚ) := by
        push_cast
        ring
      have hfl := Int.floor_le_floor hble
      have hfc : ⌊((a.route.length : ℚ) - 1)⌋ = (a.route.length : ℤ) - 1 := by
        rw [hcast, Int.floor_intCast]
      rw [hfc] at hfl
      omega
    refine ⟨hidx, ?_⟩
    unfold update_assignment_progress
    rw [ha]
    dsimp only
    rw [hs]
    dsimp only
    rw [heta]
    dsimp only
    rw [if_neg hnotge]
    have hp1 : pyInt (min 1 ((now - a.assigned_at) / (eta - a.assigned_at)) *
        ((a.route.length : ℚ) - 1)) =
        ⌊min 1 ((now - a.assigned_at) / (eta - a.assigned_at)) *
          ((a.route.length : ℚ) - 1)⌋ := by
      unfold pyInt
      rw [if_pos hmuln]
    have hp2 : pyInt (min 1 ((now - a.assigned_at) / (eta - a.assigned_at)) *
        100) =
        ⌊min 1 ((now - a.assigned_at) / (eta - a.assigned_at)) * 100⌋ := by
      unfold pyInt
      rw [if_pos hpct]
    rw [hp1, hp2]

/-- C4 (amended): the generated route starts at the start location, ends at
the end location, has length `waypointCount + 1` where
`waypointCount = max(2, ⌊distance_m / 5000⌋)` (truncation, not rounding —
see the counterexample), and its interior points are the linear
interpolations at fraction `i / waypointCount`. -/
theorem generate_route_spec (dist : Dist) (s e : Location)
    (h : 0 ≤ dist s e) :
    (_generate_route dist s e).length =
      max 2 (⌊dist s e / 5000⌋).toNat + 1 ∧
    (_generate_route dist s e).head? = some s ∧
    (_generate_route dist s e).getLast? = some e ∧
    (∀ i, 0 < i → i < max 2 (⌊dist s e / 5000⌋).toNat →
      (_generate_route dist s e)[i]? =
        some { lat := s.lat + (e.lat - s.lat) *
                 ((i : ℚ) / ((max 2 (⌊dist s e / 5000⌋).toNat : ℕ) : ℚ))
               lon := s.lon + (e.lon - s.lon) *
                 ((i : ℚ) / ((max 2 (⌊dist s e / 5000⌋).toNat : ℕ) : ℚ))
               address := none }) := by
  have hpy : pyInt (dist s e / 5000) = ⌊dist s e / 5000⌋ := by
    unfold pyInt
    rw [if_pos (div_nonneg h (by norm_num))]
  have h2 : 2 ≤ max 2 (⌊dist s e / 5000⌋).toNat := le_max_left _ _
  unfold _generate_route
  rw [hpy]
  refine ⟨?_, ?_, ?_, ?_⟩
  · simp only [List.length_append, List.length_cons, List.length_map,
      List.length_range', List.length_nil]
    omega
  · rw [List.cons_append]
    rfl
  · exact List.getLast?_concat _
  · intro i hi0 hin
    obtain ⟨j, rfl⟩ : ∃ j, i = j + 1 := ⟨i - 1, by omega⟩
    rw [List.cons_append, List.getElem?_cons_succ,
      @List.getElem?_append_left _ _ [e] j (by
        simp only [List.length_map, List.length_range']
        omega),
      List.getElem?_map,
      List.getElem?_range' _ _ (by omega)]
    simp only [Option.map_some', Option.some.injEq, Location.mk.injEq]
    have hcast : ((1 + 1 * j : ℕ) : ℚ) = ((j + 1 : ℕ) : ℚ) := by
      push_cast
      ring
    refine ⟨?_, ?_, trivial⟩ <;> rw [hcast]

/-- C4 counterexample: at distance 17,500 m the source's
`int(distance / 5000)` truncates 3.5 to 3 waypoints (route length 4), while
the claim's `round(distance / 5000)` gives 4 waypoints (route length 5). -/
theorem generate_route_rounding_counterexample :
    dist17500 runLoc0 runLoc1 = 17500 ∧
    (_generate_route dist17500 runLoc0 runLoc1).length = 4 ∧
    max 2 (round ((17500 : ℚ) / 5000)).toNat + 1 = 5 ∧ (4 : Nat) ≠ 5 := by
  refine ⟨rfl, ?_, ?_, by decide⟩
  · norm_num [_generate_route, pyInt, dist17500, Int.floor_eq_iff,
      List.length_append, List.length_map, List.length_range']
    decide
  · rw [round_eq]
    norm_num [Int.floor_eq_iff]
    decide

theorem capacityOk_iff (capacity : List (String × Int))
    (m : List (String × Int)) :
    capacityOk capacity m = true ↔
      ∀ p ∈ m, ∃ cv, dictGet capacity p.1 = some cv ∧ p.2 ≤ cv := by
  induction m with
  | nil => simp [capacityOk]
  | cons p rest ih =>
    obtain ⟨ct, mv⟩ := p
    cases hg : dictGet capacity ct with
    | none => simp [capacityOk, hg]
    | some cv => simp [capacityOk, hg, ih]


theorem meets_requirements_iff (resource : Resource)
    (reqs : List (String × PyValue)) (hwf : ∀ kv ∈ reqs, WFReq kv) :
    _meets_requirements resource reqs = true ↔
      ∀ kv ∈ reqs, ReqKeySat resource kv := by
  induction reqs with
  | nil => simp [_meets_requirements]
  | cons kv rest ih =>
    obtain ⟨k, v⟩ := kv
    have hwfh := hwf (k, v) (by simp)
    have ihr := ih fun kv hkv => hwf kv (by simp [hkv])
    by_cases h1 : k = "capabilities"
    · subst h1
      obtain ⟨hcap, -, -⟩ := hwfh
      rcases hcap rfl with ⟨l, rfl⟩ | ⟨s, rfl⟩
      · simp [_meets_requirements, ihr, ReqKeySat, capList]
      · simp [_meets_requirements, ihr, ReqKeySat, capList]
    · by_cases h2 : k = "min_capacity"
      · subst h2
        obtain ⟨-, hmc, -⟩ := hwfh
        obtain ⟨m, rfl⟩ := hmc rfl
        simp [_meets_requirements, ihr, ReqKeySat, capacityOk_iff]
      · by_cases h3 : k = "operator"
        · subst h3
          obtain ⟨-, -, hop⟩ := hwfh
          obtain ⟨s, rfl⟩ := hop rfl
          have hL : _meets_requirements resource
              (("operator", PyValue.pstr s) :: rest) =
              (decide (resource.operator = s) &&
                _meets_requirements resource rest) := rfl
          rw [hL, Bool.and_eq_true, decide_eq_true_eq, ihr,
            List.forall_mem_cons]
          refine and_congr ?_ Iff.rfl
          constructor
          · intro h
            exact ⟨fun hk => absurd hk (by simp),
              fun hk => absurd hk (by simp),
              fun _ => by rw [h]⟩
          · rintro ⟨-, -, hop'⟩
            have h3 := hop' rfl
            injection h3 with h
            exact h.symm
        · simp [_meets_requirements, h1, h2, h3, ihr, ReqKeySat]

theorem keyLE_total (dist : Dist) (request : DispatchRequest) :
    ∀ a b, keyLE dist request a b ∨ keyLE dist request b a := by
  intro a b
  unfold keyLE pairLE sortKey
  rcases lt_trichotomy (dist a.location request.location)
      (dist b.location request.location) with h | h | h
  · exact Or.inl (Or.inl h)
  · exact Or.inl (Or.inr ⟨h, le_refl _⟩)
  · exact Or.inr (Or.inl h)

theorem keyLE_trans (dist : Dist) (request : DispatchRequest) :
    ∀ a b c, keyLE dist request a b → keyLE dist request b c →
      keyLE dist request a c := by
  intro a b c
  unfold keyLE pairLE sortKey
  rintro (h1 | ⟨e1, p1⟩) (h2 | ⟨e2, p2⟩)
  · exact Or.inl (lt_trans h1 h2)
  · exact Or.inl (by rw [← e2]; exact h1)
  · exact Or.inl (by rw [e1]; exact h2)
  · exact Or.inr ⟨e1.trans e2, le_trans p1 p2⟩

theorem keyLE_dist_le (dist : Dist) (request : DispatchRequest)
    (a b : Resource) (h : keyLE dist request a b) :
    dist a.location request.location ≤ dist b.location request.location := by
  unfold keyLE pairLE sortKey at h
  rcases h with h | ⟨e, -⟩
  · exact le_of_lt h
  · exact le_of_eq e

/-- C1: `discover_resources` returns exactly the registered resources whose
type matches the request, whose status is AVAILABLE, whose distance to the
request's location is at most `maxDistanceKm * 1000` meters, and which
satisfy every requirement entry (capabilities: at least one listed
capability among the resource's; min_capacity: every named capacity key
present with value at least the threshold; operator: exact equality) — and
the result is sorted ascending by distance to the request's location. -/
theorem discover_resources_correct (dist : Dist) (resources : List Resource)
    (request : DispatchRequest) (maxKm : ℚ)
    (hwf : ∀ kv ∈ request.requirements, WFReq kv) :
    (∀ r, r ∈ discover_resources dist resources request maxKm ↔
        (r ∈ resources ∧ r.resource_type = request.resource_type ∧
         r.status = ResourceStatus.available ∧
         dist r.location request.location ≤ maxKm * 1000 ∧
         ∀ kv ∈ request.requirements, ReqKeySat r kv)) ∧
    (discover_resources dist resources request maxKm).Pairwise
      (fun a b => dist a.location request.location ≤
        dist b.location request.location) := by
  constructor
  · intro r
    unfold discover_resources
    rw [List.mem_insertionSort, List.mem_filter]
    unfold discoverKeep
    simp only [Bool.and_eq_true, decide_eq_true_eq]
    rw [meets_requirements_iff r request.requirements hwf]
    tauto
  · letI : IsTotal Resource (keyLE dist request) := ⟨keyLE_total dist request⟩
    letI : IsTrans Resource (keyLE dist request) := ⟨keyLE_trans dist request⟩
    have hs := List.sorted_insertionSort (keyLE dist request)
      (resources.filter (discoverKeep dist request maxKm))
    exact hs.imp fun hab => keyLE_dist_le dist request _ _ hab

/-- C9 (amended): the sort is stable and its secondary key
`-request.priority` is the same for every candidate, so two returned
resources at exactly equal distance keep their relative registry
(insertion) order — not ascending resource-id order, see the
counterexample. -/
theorem discover_resources_tie_stability (dist : Dist)
    (resources : List Resource) (request : DispatchRequest) (maxKm : ℚ)
    (a b : Resource)
    (hmem_a : a ∈ discover_resources dist resources request maxKm)
    (hmem_b : b ∈ discover_resources dist resources request maxKm)
    (hsub : [a, b].Sublist resources)
    (htie : dist a.location request.location =
      dist b.location request.location) :
    [a, b].Sublist (discover_resources dist resources request maxKm) := by
  have hka : discoverKeep dist request maxKm a = true := by
    unfold discover_resources at hmem_a
    rw [List.mem_insertionSort, List.mem_filter] at hmem_a
    exact hmem_a.2
  have hkb : discoverKeep dist request maxKm b = true := by
    unfold discover_resources at hmem_b
    rw [List.mem_insertionSort, List.mem_filter] at hmem_b
    exact hmem_b.2
  have hfs : [a, b].Sublist
      (resources.filter (discoverKeep dist request maxKm)) := by
    have h2 := hsub.filter (discoverKeep dist request maxKm)
    simpa [List.filter_cons, hka, hkb] using h2
  unfold discover_resources
  refine List.pair_sublist_insertionSort ?_ hfs
  unfold keyLE pairLE sortKey
  exact Or.inr ⟨htie, le_refl _⟩

/-- C9 counterexample: resources "B" then "A" registered in that order at
the very same point as the request tie on distance, yet discovery returns
them in registration order `[B, A]`, not ascending by resource id. -/
theorem discover_tie_counterexample :
    discover_resources zeroDist [resB, resA] tieRequest 50 = [resB, resA] ∧
    zeroDist resB.location tieRequest.location =
      zeroDist resA.location tieRequest.location ∧
    resA.resource_id < resB.resource_id ∧
    resA.resource_id ≠ resB.resource_id := by
  refine ⟨?_, rfl, ?_, by decide⟩
  · unfold discover_resources
    norm_num [discoverKeep, _meets_requirements, zeroDist, resB, resA,
      tieRequest, runRequest, List.filter, List.insertionSort,
      List.orderedInsert, keyLE, pairLE, sortKey]
  · show ("A" : String) < "B"
    rw [String.lt_iff_toList_lt]
    exact List.Lex.rel (by decide)

theorem route_eval : _generate_route runDist runLoc0 runLoc1 = routeR := by
  unfold _generate_route pyInt
  norm_num [runDist, Int.floor_eq_iff, routeR, midLoc, runLoc0, runLoc1,
    List.range']

theorem assign_eval :
    assign_resource runDist st0 0 "Q1" none = (some asg1, st1e) := by
  unfold assign_resource resolvedId falsyId
  norm_num [st0, dictGet, discover_resources, discoverKeep,
    _meets_requirements, runDist, runResource, runRequest, List.filter,
    List.insertionSort, List.orderedInsert, findRes, update_resource_status,
    _get_resource_speed, dictSet, route_eval, asg1, st1e, runResourceD]

theorem advance_eval1 :
    update_assignment_progress st1e 0 0 = (some asg2, st2e) := by
  unfold update_assignment_progress
  norm_num [st1e, st0, dictGet, asg1, dictSet, update_resource_status,
    findRes, runResourceD, runResourceE, runResource, asg2, st2e]

theorem advance_eval2 :
    update_assignment_progress st2e 100 0 = (some asg3, st3e) := by
  unfold update_assignment_progress
  norm_num [st2e, st1e, st0, dictGet, asg2, asg1, dictSet,
    update_resource_status, findRes, runResourceE, runResourceArr,
    runResource, asg3, st3e, routeR, List.getLastD]

theorem advance_eval3 :
    update_assignment_progress st3e 401 0 = (some asg4, st4e) := by
  unfold update_assignment_progress
  norm_num [st3e, st2e, st1e, st0, dictGet, asg3, asg2, asg1, dictSet,
    update_resource_status, findRes, runResourceArr, runResourceAv,
    runResource, asg4, st4e]

theorem cancel_eval : cancel_assignment st4e 0 = (true, st5e) := by
  unfold cancel_assignment
  norm_num [st4e, st3e, st2e, st1e, st0, dictGet, asg4, asg3, asg2, asg1,
    dictSet, update_resource_status, findRes, runResourceAv, runResource,
    asg5, st5e]

theorem dictSet_absent {κ α : Type} [DecidableEq κ] (l : List (κ × α))
    (key : κ) (v : α) (h : dictGet l key = none) :
    dictSet l key v = l ++ [(key, v)] := by
  unfold dictSet
  rw [h]
  rfl

theorem dictGet_append_of_some {κ α : Type} [DecidableEq κ]
    (l l' : List (κ × α)) (key : κ) (a : α) (h : dictGet l key = some a) :
    dictGet (l ++ l') key = some a := by
  rw [dictGet_append, h]

theorem wf_keys (l : List (Nat × DispatchAssignment)) (n : Nat) (aid : Nat)
    (b2 : DispatchAssignment) (hpresent : (dictGet l aid).isSome)
    (h : ∀ k ∈ l.map Prod.fst, k < n) :
    ∀ k ∈ (dictSet l aid b2).map Prod.fst, k < n := by
  rw [dictSet_keys_of_present _ _ _ hpresent]
  exact h

theorem mono_of_dictSet (st : SystemState) (aid : Nat)
    (b b2 : DispatchAssignment)
    (hg : dictGet st.assignments aid = some b)
    (hrank : statusRank b.status ≤ statusRank b2.status)
    (hcanc : b.status = DispatchStatus.cancelled →
      b2.status = DispatchStatus.cancelled) :
    ∀ k a, dictGet st.assignments k = some a →
      ∃ a', dictGet (dictSet st.assignments aid b2) k = some a' ∧
        statusRank a.status ≤ statusRank a'.status ∧
        (a.status = DispatchStatus.cancelled →
          a'.status = DispatchStatus.cancelled) := by
  intro k a h
  by_cases hk : k = aid
  · subst hk
    rw [h] at hg
    obtain rfl : a = b := Option.some.inj hg
    exact ⟨b2, dictGet_dictSet_self _ _ _, hrank, hcanc⟩
  · exact ⟨a, by rw [dictGet_dictSet_ne _ _ _ _ hk]; exact h, le_rfl,
      fun hc => hc⟩

theorem advance_preserves (st : SystemState) (now : ℚ) (aid : Nat)
    (hwf : WFState st) :
    WFState (update_assignment_progress st now aid).2 ∧
    ∀ k a, dictGet st.assignments k = some a →
      ∃ a', dictGet (update_assignment_progress st now aid).2.assignments k
          = some a' ∧
        statusRank a.status ≤ statusRank a'.status ∧
        (a.status = DispatchStatus.cancelled →
          a'.status = DispatchStatus.cancelled) := by
  unfold update_assignment_progress
  cases hg : dictGet st.assignments aid with
  | none => exact ⟨hwf, fun k a h => ⟨a, h, le_rfl, fun hc => hc⟩⟩
  | some b =>
    dsimp only
    have hpres : (dictGet st.assignments aid).isSome := by rw [hg]; rfl
    cases hstatus : b.status with
    | assigned =>
      exact ⟨wf_keys _ _ _ _ hpres hwf,
        mono_of_dictSet st aid b _ hg
          (by rw [hstatus]; try simp [statusRank]) (by simp [hstatus])⟩
    | dispatched =>
      cases heta : b.estimated_arrival with
      | none => exact ⟨hwf, fun k a h => ⟨a, h, le_rfl, fun hc => hc⟩⟩
      | some eta =>
        dsimp only
        split
        · exact ⟨wf_keys _ _ _ _ hpres hwf,
            mono_of_dictSet st aid b _ hg
              (by rw [hstatus]; try simp [statusRank]) (by simp [hstatus])⟩
        · exact ⟨wf_keys _ _ _ _ hpres hwf,
            mono_of_dictSet st aid b _ hg
              (by rw [hstatus]; try simp [statusRank]) (by simp [hstatus])⟩
    | in_progress =>
      cases harr : b.actual_arrival with
      | none => exact ⟨hwf, fun k a h => ⟨a, h, le_rfl, fun hc => hc⟩⟩
      | some arr =>
        dsimp only
        split
        · exact ⟨wf_keys _ _ _ _ hpres hwf,
            mono_of_dictSet st aid b _ hg
              (by rw [hstatus]; try simp [statusRank]) (by simp [hstatus])⟩
        · exact ⟨hwf, fun k a h => ⟨a, h, le_rfl, fun hc => hc⟩⟩
    | pending => exact ⟨hwf, fun k a h => ⟨a, h, le_rfl, fun hc => hc⟩⟩
    | searching => exact ⟨hwf, fun k a h => ⟨a, h, le_rfl, fun hc => hc⟩⟩
    | completed => exact ⟨hwf, fun k a h => ⟨a, h, le_rfl, fun hc => hc⟩⟩
    | failed => exact ⟨hwf, fun k a h => ⟨a, h, le_rfl, fun hc => hc⟩⟩
    | cancelled => exact ⟨hwf, fun k a h => ⟨a, h, le_rfl, fun hc => hc⟩⟩

theorem cancel_preserves (st : SystemState) (aid : Nat) (hwf : WFState st) :
    WFState (cancel_assignment st aid).2 ∧
    ∀ k a, dictGet st.assignments k = some a →
      ∃ a', dictGet (cancel_assignment st aid).2.assignments k = some a' ∧
        statusRank a.status ≤ statusRank a'.status ∧
        (a.status = DispatchStatus.cancelled →
          a'.status = DispatchStatus.cancelled) := by
  unfold cancel_assignment
  cases hg : dictGet st.assignments aid with
  | none => exact ⟨hwf, fun k a h => ⟨a, h, le_rfl, fun hc => hc⟩⟩
  | some b =>
    dsimp only
    have hpres : (dictGet st.assignments aid).isSome := by rw [hg]; rfl
    refine ⟨wf_keys _ _ _ _ hpres hwf,
      mono_of_dictSet st aid b _ hg ?_ (fun _ => rfl)⟩
    cases b.status <;> simp [statusRank]

theorem assign_preserves (dist : Dist) (st : SystemState) (now : ℚ)
    (request_id : String) (orid : Option String) (hwf : WFState st) :
    WFState (assign_resource dist st now request_id orid).2 ∧
    ∀ k a, dictGet st.assignments k = some a →
      ∃ a', dictGet (assign_resource dist st now request_id orid).2.assignments
          k = some a' ∧
        statusRank a.status ≤ statusRank a'.status ∧
        (a.status = DispatchStatus.cancelled →
          a'.status = DispatchStatus.cancelled) := by
  unfold assign_resource
  cases hreq : dictGet st.active_requests request_id with
  | none => exact ⟨hwf, fun k a h => ⟨a, h, le_rfl, fun hc => hc⟩⟩
  | some request =>
    dsimp only
    cases hrid : resolvedId dist st request orid with
    | none => exact ⟨hwf, fun k a h => ⟨a, h, le_rfl, fun hc => hc⟩⟩
    | some rid =>
      dsimp only
      cases hres : findRes st.resources rid with
      | none => exact ⟨hwf, fun k a h => ⟨a, h, le_rfl, fun hc => hc⟩⟩
      | some resource =>
        dsimp only
        split
        · have hnone : dictGet st.assignments st.nextId = none :=
            dictGet_eq_none_of_lt _ _ hwf
          rw [dictSet_absent _ _ _ hnone]
          constructor
          · intro k hk
            simp only [List.map_append, List.map_cons, List.map_nil,
              List.mem_append, List.mem_cons, List.not_mem_nil,
              or_false] at hk
            rcases hk with hk' | hk'
            · exact Nat.lt_succ_of_lt (hwf k hk')
            · subst hk'
              exact Nat.lt_succ_self _
          · intro k a h
            exact ⟨a, dictGet_append_of_some _ _ _ _ h, le_rfl, fun hc => hc⟩
        · exact ⟨hwf, fun k a h => ⟨a, h, le_rfl, fun hc => hc⟩⟩

theorem step_preserves (dist : Dist) {st st' : SystemState}
    (hstep : Step dist st st') (hwf : WFState st) :
    WFState st' ∧
    ∀ k a, dictGet st.assignments k = some a →
      ∃ a', dictGet st'.assignments k = some a' ∧
        statusRank a.status ≤ statusRank a'.status ∧
        (a.status = DispatchStatus.cancelled →
          a'.status = DispatchStatus.cancelled) := by
  cases hstep with
  | assign now request_id orid =>
    exact assign_preserves dist st now request_id orid hwf
  | advance now aid => exact advance_preserves st now aid hwf
  | cancel aid => exact cancel_preserves st aid hwf

/-- C5 (amended): across any sequence of assign / advance / cancel
operations (from a state whose stored assignment ids predate the fresh-id
counter, as every reachable state's do), an assignment's status only moves
forward through ASSIGNED → DISPATCHED → IN_PROGRESS → COMPLETED → CANCELLED
rank order, and once CANCELLED it never changes again.  COMPLETED is *not*
terminal against cancellation: `cancel_assignment` moves a COMPLETED
assignment to CANCELLED (see the counterexample), which is the one forward
step the original claim ruled out. -/
theorem lifecycle_monotonic (dist : Dist) {st st' : SystemState}
    (hwf : WFState st)
    (hsteps : Relation.ReflTransGen (Step dist) st st')
    (k : Nat) (a a' : DispatchAssignment)
    (ha : dictGet st.assignments k = some a)
    (ha' : dictGet st'.assignments k = some a') :
    statusRank a.status ≤ statusRank a'.status ∧
    (a.status = DispatchStatus.cancelled →
      a'.status = DispatchStatus.cancelled) := by
  have main : WFState st' ∧
      ∀ k a, dictGet st.assignments k = some a →
        ∃ b, dictGet st'.assignments k = some b ∧
          statusRank a.status ≤ statusRank b.status ∧
          (a.status = DispatchStatus.cancelled →
            b.status = DispatchStatus.cancelled) := by
    clear ha' a'
    induction hsteps with
    | refl => exact ⟨hwf, fun k a h => ⟨a, h, le_rfl, fun hc => hc⟩⟩
    | tail hs hstep ih =>
      obtain ⟨hwfm, hmono⟩ := ih
      obtain ⟨hwf2, hmono2⟩ := step_preserves _ hstep hwfm
      refine ⟨hwf2, fun k a h => ?_⟩
      obtain ⟨b, hb, r1, c1⟩ := hmono k a h
      obtain ⟨b2, hb2, r2, c2⟩ := hmono2 k b hb
      exact ⟨b2, hb2, le_trans r1 r2, fun hc => c2 (c1 hc)⟩
  obtain ⟨-, hmono⟩ := main
  obtain ⟨b, hb, r, c⟩ := hmono k a ha
  rw [ha'] at hb
  obtain rfl : a' = b := Option.some.inj hb
  exact ⟨r, c⟩

/-- C5 counterexample: driving the fixture assignment to COMPLETED and then
cancelling changes its status from COMPLETED to CANCELLED — a COMPLETED
status is not final, contradicting "once COMPLETED or CANCELLED is reached
the status never changes again". -/
theorem lifecycle_completed_then_cancelled_counterexample :
    assign_resource runDist st0 0 "Q1" none = (some asg1, st1e) ∧
    update_assignment_progress st1e 0 0 = (some asg2, st2e) ∧
    update_assignment_progress st2e 100 0 = (some asg3, st3e) ∧
    update_assignment_progress st3e 401 0 = (some asg4, st4e) ∧
    dictGet st4e.assignments 0 = some asg4 ∧
    asg4.status = DispatchStatus.completed ∧
    cancel_assignment st4e 0 = (true, st5e) ∧
    dictGet st5e.assignments 0 = some asg5 ∧
    asg5.status = DispatchStatus.cancelled ∧
    DispatchStatus.completed ≠ DispatchStatus.cancelled :=
  ⟨assign_eval, advance_eval1, advance_eval2, advance_eval3, rfl, rfl,
    cancel_eval, rfl, rfl, by decide⟩

/-- Witness for the amended C5 theorem: one cancel step on the completed
fixture state. -/
theorem lifecycle_monotonic_witness :
    statusRank asg4.status ≤ statusRank asg5.status ∧
    (asg4.status = DispatchStatus.cancelled →
      asg5.status = DispatchStatus.cancelled) := by
  have hsteps : Relation.ReflTransGen (Step runDist) st4e st5e := by
    have h2 : (cancel_assignment st4e 0).2 = st5e :=
      congrArg Prod.snd cancel_eval
    exact h2 ▸ Relation.ReflTransGen.single (Step.cancel st4e 0)
  refine lifecycle_monotonic runDist ?_ hsteps 0 asg4 asg5 rfl rfl
  intro k hk
  simp [st4e, st3e, st2e, st1e, st0] at hk ⊢
  omega

/-- Witness for C1 at a concrete registry and request. -/
theorem discover_resources_correct_witness :
    runResource ∈ discover_resources runDist [runResource] runRequest 50 := by
  have h := (discover_resources_correct runDist [runResource] runRequest 50
    (by simp [runRequest])).1 runResource
  refine h.mpr ⟨by simp, rfl, rfl, by norm_num [runDist], ?_⟩
  intro kv hkv
  simp [runRequest] at hkv

/-- Witness for C2 at the concrete fixture request and resource. -/
theorem assign_resource_success_witness :
    ∃ a st',
      assign_resource runDist st0 0 "Q1" (some "R1") = (some a, st') ∧
      a.status = DispatchStatus.assigned ∧
      a.current_location = some runResource.location ∧
      a.assigned_at = 0 ∧
      a.estimated_arrival = some (0 +
        runDist runResource.location runRequest.location /
          _get_resource_speed runResource.resource_type) ∧
      a.route = _generate_route runDist runResource.location
        runRequest.location ∧
      findRes st'.resources runResource.resource_id =
        some { runResource with status := ResourceStatus.dispatched } ∧
      dictGet st'.assignments a.assignment_id = some a ∧
      _get_resource_speed ResourceType.drone = 15 ∧
      _get_resource_speed ResourceType.autonomous_vehicle = 139 / 10 ∧
      _get_resource_speed ResourceType.emergency_team = 111 / 10 ∧
      _get_resource_speed ResourceType.supply_delivery = 83 / 10 ∧
      _get_resource_speed ResourceType.medical_unit = 167 / 10 :=
  assign_resource_success runDist st0 0 "Q1" (some "R1") runRequest
    runResource rfl ⟨by decide, rfl⟩ rfl rfl

/-- Witness for C3: polling the dispatched fixture assignment halfway to the
ETA puts the unit at the route midpoint, still DISPATCHED. -/
theorem update_progress_dispatched_witness :
    ((update_assignment_progress st2e 50 0).1.map
      DispatchAssignment.current_location) = some (some midLoc) ∧
    ((update_assignment_progress st2e 50 0).1.map
      DispatchAssignment.status) = some DispatchStatus.dispatched := by
  have h := update_progress_dispatched st2e 50 0 asg2 100 rfl rfl rfl
    (by norm_num [asg2, asg1]) (by norm_num [asg2, asg1])
    (by simp [asg2, asg1, routeR])
  have hlt : max 0 (min 1 ((50 - asg2.assigned_at) /
      (100 - asg2.assigned_at))) < 1 := by
    norm_num [asg2, asg1]
  obtain ⟨-, -, h2⟩ := h
  obtain ⟨-, heq⟩ := h2 hlt
  rw [heq]
  constructor <;>
    norm_num [asg2, asg1, routeR, Int.floor_eq_iff, List.getD]

/-- Witness for the amended C4 theorem: the fixture 1500 m route has
`max(2, ⌊1500 / 5000⌋) + 1 = 3` points. -/
theorem generate_route_spec_witness :
    0 ≤ runDist runLoc0 runLoc1 ∧
    (_generate_route runDist runLoc0 runLoc1).length = 3 := by
  refine ⟨by norm_num [runDist], ?_⟩
  have h := (generate_route_spec runDist runLoc0 runLoc1
    (by norm_num [runDist])).1
  rw [h]
  norm_num [runDist, Int.floor_eq_iff]
  try decide

/-- Witness for C6: cancelling the COMPLETED fixture assignment. -/
theorem cancel_assignment_spec_witness :
    cancel_assignment st4e 0 =
      (true, { st4e with
          assignments := dictSet st4e.assignments 0
            { asg4 with status := DispatchStatus.cancelled }
          resources := update_resource_status st4e.resources asg4.resource_id
            ResourceStatus.available none }) ∧
    asg4.status = DispatchStatus.completed :=
  ⟨((cancel_assignment_spec st4e 0).1 asg4 rfl).1, rfl⟩

/-- Witness for C7: assigning against an unknown request id fails. -/
theorem assign_resource_failure_cases_witness :
    (assign_resource runDist st0 0 "QX" none).1 = none :=
  ((assign_resource_failure_cases runDist st0 0 "QX" none).1).mpr
    (Or.inl rfl)

/-- Witness for C8: advancing the COMPLETED fixture assignment, repeatedly,
changes nothing. -/
theorem advance_terminal_noop_witness :
    update_assignment_progress st4e 1000 0 = (some asg4, st4e) ∧
    (fun s => (update_assignment_progress s 1000 0).2)^[3] st4e = st4e := by
  have h := advance_terminal_noop st4e 1000 0 asg4 rfl (Or.inl rfl)
  exact ⟨h.1, h.2 3⟩

/-- Witness for the amended C9 theorem on the tied fixture registry. -/
theorem discover_resources_tie_stability_witness :
    [resB, resA].Sublist
      (discover_resources zeroDist [resB, resA] tieRequest 50) := by
  have hd : discover_resources zeroDist [resB, resA] tieRequest 50 =
      [resB, resA] := by
    unfold discover_resources
    norm_num [discoverKeep, _meets_requirements, zeroDist, resB, resA,
      tieRequest, runRequest, List.filter, List.insertionSort,
      List.orderedInsert, keyLE, pairLE, sortKey]
  refine discover_resources_tie_stability zeroDist [resB, resA] tieRequest 50
    resB resA ?_ ?_ (List.Sublist.refl _) rfl
  · rw [hd]
    simp
  · rw [hd]
    simp

/-- Witness for C10: a requirements map with only an unrecognised key is
satisfied. -/
theorem meets_requirements_ignores_unknown_keys_witness :
    _meets_requirements runResource [("custom_flag", PyValue.pint 1)] =
      true := by
  refine (meets_requirements_ignores_unknown_keys runResource
    [("custom_flag", PyValue.pint 1)]).2 ?_
  intro kv hkv
  rw [List.mem_singleton] at hkv
  subst hkv
  exact ⟨by decide, by decide, by decide⟩
